import Mathlib

/-!
Verification of the daily-haiku backend (src/app/main.py) against its
natural-language specification.

The store (three Supabase tables: haikus, keywords, daily_haikus) is embedded
as explicit lists inside a `Store` structure; each endpoint of main.py becomes
a pure Lean function from its inputs and the store to a response (and, for the
writing endpoint, a new store).  `random.choice` is modelled by an arbitrary
index parameter `choice`, reduced modulo the pool length.
-/

namespace DailyHaiku

/-- Calendar date as year, month, day. -/
structure YMD where
  year : Nat
  month : Nat
  day : Nat
deriving DecidableEq, Repr

/-- One row of the haikus table (columns used by main.py). -/
structure Poem where
  id : Nat
  haiku : String
  author : String
  season : String
  title : String
deriving DecidableEq, Repr

/-- One row of the daily_haikus table: a date (ISO string, the unique key)
bound to a poem identifier. -/
structure Assignment where
  date : String
  haiku_id : Nat
deriving DecidableEq, Repr

/-- The record store: the three tables main.py reads and writes.
Keywords rows are (haiku_id, keyword) pairs. -/
structure Store where
  haikus : List Poem
  keywords : List (Nat × String)
  daily_haikus : List Assignment
deriving DecidableEq, Repr

/-- Stand-in for the environment value SUPABASE_BUCKET_URL. -/
def SUPABASE_BUCKET_URL : String := "https://bucket.example"

/- ===== Season classifier (main.py lines 45-56) ===== -/

/-- Month-day order: (m1,d1) comes no later than (m2,d2) in the year.
Mirrors Python date comparison after both dates are normalised to year 2000. -/
def mdLe (m1 d1 m2 d2 : Nat) : Bool :=
  decide (m1 < m2 ∨ (m1 = m2 ∧ d1 ≤ d2))

/-- The five ordered season ranges of main.py: label, start (month, day),
end (month, day), all in the fictitious leap year Y = 2000. -/
def seasons : List (String × (Nat × Nat) × (Nat × Nat)) :=
  [("winter", (1, 1), (3, 20)),
   ("spring", (3, 21), (6, 20)),
   ("summer", (6, 21), (9, 22)),
   ("autumn", (9, 23), (12, 20)),
   ("winter", (12, 21), (12, 31))]

/-- Containment of a month-day in one season range. -/
def inSeasonRange (entry : String × (Nat × Nat) × (Nat × Nat)) (m d : Nat) : Bool :=
  mdLe entry.2.1.1 entry.2.1.2 m d && mdLe m d entry.2.2.1 entry.2.2.2

/-- get_season of main.py: normalise onto year 2000, return the label of the
first matching range.  Python raises StopIteration when no range matches,
modelled as `none`. -/
def get_season (m d : Nat) : Option String :=
  (seasons.find? (fun entry => inSeasonRange entry m d)).map (fun entry => entry.1)

/-- Days in each month of the reference leap year 2000. -/
def daysInMonth2000 (m : Nat) : Nat :=
  if m = 2 then 29
  else if m = 4 ∨ m = 6 ∨ m = 9 ∨ m = 11 then 30
  else if 1 ≤ m ∧ m ≤ 12 then 31
  else 0

/-- Validity of a month-day pair in the reference leap year 2000. -/
def validMD (m d : Nat) : Bool :=
  decide (1 ≤ m ∧ m ≤ 12 ∧ 1 ≤ d ∧ d ≤ daysInMonth2000 m)

/-- Gregorian leap-year test, as Python's datetime uses. -/
def isLeap (y : Nat) : Bool :=
  (y % 4 == 0 && y % 100 != 0) || y % 400 == 0

/-- Days in a month of a given Gregorian year. -/
def daysInMonthG (y m : Nat) : Nat :=
  if m = 2 then (if isLeap y then 29 else 28) else daysInMonth2000 m

/-- Validity of a full Gregorian date as Python's datetime accepts it
(year at least 1). -/
def validGregorian (y m d : Nat) : Bool :=
  decide (1 ≤ y ∧ y ≤ 9999 ∧ 1 ≤ m ∧ m ≤ 12 ∧ 1 ≤ d ∧ d ≤ daysInMonthG y m)

/- ===== Date strings ===== -/

/-- Zero-padded two-digit rendering of a number, as strftime's %m / %d emit. -/
def pad2 (n : Nat) : String :=
  if n < 10 then "0" ++ toString n else toString n

/-- Zero-padded four-digit rendering of a year, as strftime's %Y emits. -/
def pad4 (n : Nat) : String :=
  if n < 10 then "000" ++ toString n
  else if n < 100 then "00" ++ toString n
  else if n < 1000 then "0" ++ toString n
  else toString n

/-- ISO rendering YYYY-MM-DD of a date, as strftime and date.isoformat emit. -/
def ymdToStr (d : YMD) : String :=
  pad4 d.year ++ "-" ++ pad2 d.month ++ "-" ++ pad2 d.day

/-- Numeric value of a decimal digit character. -/
def digitVal (c : Char) : Nat := c.toNat - 48

/-- Shape check for the route pattern of /haiku/.. : exactly
four digits, a dash, two digits, a dash, two digits. -/
def datePatternOk (str : String) : Bool :=
  match str.toList with
  | [y1, y2, y3, y4, h1, m1, m2, h2, d1, d2] =>
      y1.isDigit && y2.isDigit && y3.isDigit && y4.isDigit && h1 == '-' &&
      m1.isDigit && m2.isDigit && h2 == '-' && d1.isDigit && d2.isDigit
  | _ => false

/-- Model of datetime.strptime(s, "%Y-%m-%d").date() on strings of the route
shape: digits are read positionally and the result must be a real Gregorian
calendar date (Python datetime requires year at least 1); anything else is a
ValueError, modelled as `none`. -/
def parseDate (str : String) : Option YMD :=
  match str.toList with
  | [y1, y2, y3, y4, h1, m1, m2, h2, d1, d2] =>
      if y1.isDigit && y2.isDigit && y3.isDigit && y4.isDigit && h1 == '-' &&
         m1.isDigit && m2.isDigit && h2 == '-' && d1.isDigit && d2.isDigit then
        let y := ((digitVal y1 * 10 + digitVal y2) * 10 + digitVal y3) * 10 + digitVal y4
        let m := digitVal m1 * 10 + digitVal m2
        let d := digitVal d1 * 10 + digitVal d2
        if validGregorian y m d then some ⟨y, m, d⟩ else none
      else none
  | _ => none

/- ===== Responses ===== -/

/-- Client-facing decorated poem, as get_haiku_by_id builds it: the haikus row
plus keyword list and image_url; the history endpoint later adds a date. -/
structure PoemView where
  id : Nat
  haiku : String
  author : String
  season : String
  title : String
  keywords : List String
  image_url : String
  date : Option String
deriving DecidableEq, Repr

/-- The synthetic closing response of main.py step 4 (all poems used). -/
structure ClosingView where
  haiku : String
  author : String
  season : String
  date : String
  title : String
  notes : String
  source : String
  keywords : List String
  image_url : String
deriving DecidableEq, Repr

/-- Response of an HTTP handler: a poem body, the closing body, an
HTTPException with status and detail, or Python's bare None. -/
inductive Resp where
  | poem (v : PoemView)
  | closing (c : ClosingView)
  | httpError (status : Nat) (detail : String)
  | noneBody
deriving DecidableEq, Repr

/- ===== Store helpers (main.py lines 60-85) ===== -/

/-- get_haiku_by_id: look up the haikus row, decorate with keywords and
image_url; `none` when the row is missing. -/
def get_haiku_by_id (s : Store) (hid : Nat) : Option PoemView :=
  match s.haikus.find? (fun h => h.id == hid) with
  | none => none
  | some h => some
      { id := h.id, haiku := h.haiku, author := h.author, season := h.season,
        title := h.title,
        keywords := (s.keywords.filter (fun k => k.1 == hid)).map (fun k => k.2),
        image_url := SUPABASE_BUCKET_URL ++ "/haiku_" ++ toString hid ++ ".png",
        date := none }

/-- get_daily_haiku_by_date: parse strictly, look up the assignment for the
normalised ISO date, resolve the poem; every failure is `none`. -/
def get_daily_haiku_by_date (dateStr : String) (s : Store) : Option PoemView :=
  match parseDate dateStr with
  | none => none
  | some d =>
      match s.daily_haikus.filter (fun a => a.date == ymdToStr d) with
      | [] => none
      | a :: _ => get_haiku_by_id s a.haiku_id

/- ===== Daily assignment allocator (main.py lines 88-158) ===== -/

/-- Poem identifiers already present in any assignment row (used_ids). -/
def usedIds (s : Store) : List Nat := s.daily_haikus.map (fun a => a.haiku_id)

/-- Seasonal candidates: haikus of the given season minus the used set. -/
def seasonalRemaining (s : Store) (season : String) : List Poem :=
  (s.haikus.filter (fun h => h.season == season)).filter
    (fun h => !(usedIds s).contains h.id)

/-- Fallback candidates: all haikus minus the used set. -/
def fallbackRemaining (s : Store) : List Poem :=
  s.haikus.filter (fun h => !(usedIds s).contains h.id)

/-- Candidate pool after the fallback widening of step 3. -/
def remainingPool (s : Store) (season : String) : List Poem :=
  match seasonalRemaining s season with
  | [] => fallbackRemaining s
  | p :: ps => p :: ps

/-- Supabase upsert on the daily_haikus date key: replace the row with that
date when present, append otherwise. -/
def upsertAssignment (rows : List Assignment) (d : String) (hid : Nat) :
    List Assignment :=
  if rows.any (fun a => a.date == d) then
    rows.map (fun a => if a.date == d then ⟨d, hid⟩ else a)
  else rows ++ [⟨d, hid⟩]

/-- The closing body of main.py step 4, parameterised by today's string and
the length of used_ids. -/
def closingView (todayStr : String) (total : Nat) : ClosingView :=
  { haiku := "The journey has ended.\nEach verse now belongs to you.\nThank you for reading.",
    author := "DailyHaiku",
    season := "eternal",
    date := todayStr,
    title := "Final Haiku",
    notes := "DailyHaiku shared " ++ toString total ++ " unique poems with the world.",
    source := "memory",
    keywords := ["goodbye", "gratitude", "legacy"],
    image_url := SUPABASE_BUCKET_URL ++ "/final_haiku.png" }

/-- Store after step 6 commits the chosen poem for today. -/
def withUpsert (today : YMD) (chosen : Poem) (s : Store) : Store :=
  { s with daily_haikus :=
      upsertAssignment s.daily_haikus (ymdToStr today) chosen.id }

/-- Steps 5-7 of get_daily_haiku once a candidate is drawn: the identifier
truthiness check, the upsert commit, and the final re-resolution of the
chosen poem (Python returns the bare None when that lookup misses). -/
def commitChoice (today : YMD) (chosen : Poem) (s : Store) : Resp × Store :=
  if chosen.id = 0 then (.httpError 500 "Selected haiku is invalid.", s)
  else
    match get_haiku_by_id (withUpsert today chosen s) chosen.id with
    | some h => (.poem h, withUpsert today chosen s)
    | none => (.noneBody, withUpsert today chosen s)

/-- get_daily_haiku, the GET /daily_haiku handler: get-or-create for `today`.
The random.choice of step 5 is modelled by the `choice` index taken modulo the
pool length.  Returns the response together with the resulting store. -/
def get_daily_haiku (today : YMD) (choice : Nat) (s : Store) : Resp × Store :=
  match get_season today.month today.day with
  | none => (.httpError 500 "StopIteration", s)
  | some season =>
      match s.daily_haikus.filter (fun a => a.date == ymdToStr today) with
      | a :: _ =>
          match get_haiku_by_id s a.haiku_id with
          | some h => (.poem h, s)
          | none => (.httpError 500 "Haiku assigned but not found", s)
      | [] =>
          match remainingPool s season with
          | [] => (.closing (closingView (ymdToStr today) (usedIds s).length), s)
          | p :: ps =>
              commitChoice today
                ((p :: ps).get
                  ⟨choice % (p :: ps).length, Nat.mod_lt _ (Nat.succ_pos ps.length)⟩) s

/-- Run a sequence of get-or-create calls, threading the store; each call is
a (today, choice) pair. -/
def runCalls (ops : List (YMD × Nat)) (s : Store) : Store :=
  ops.foldl (fun st op => (get_daily_haiku op.1 op.2 st).2) s

/-- No-reuse invariant on a store: no poem identifier occurs in two
assignment rows. -/
def NoReuse (s : Store) : Prop := (usedIds s).Nodup

/- ===== Lookup by date (main.py lines 225-232) ===== -/

/-- Body of the GET /haiku/.. handler, as called directly (no route
validation): 404 when the helper resolves nothing. -/
def get_haiku_data_by_date (dateStr : String) (s : Store) : Resp :=
  match get_daily_haiku_by_date dateStr s with
  | none => .httpError 404 "Haiku not found."
  | some h => .poem h

/-- The GET /haiku/.. route including FastAPI's Path pattern validation:
strings not of shape dddd-dd-dd are rejected with 422 before the handler
runs. -/
def get_haiku_data_by_date_route (dateStr : String) (s : Store) : Resp :=
  if datePatternOk dateStr then get_haiku_data_by_date dateStr s
  else .httpError 422 "string should match pattern"

/- ===== Paginated history (main.py lines 163-206) ===== -/

/-- Insert a date string into a descending-sorted list. -/
def insertDesc (d : String) : List String → List String
  | [] => [d]
  | x :: xs => if d ≥ x then d :: x :: xs else x :: insertDesc d xs

/-- Descending sort of date strings, modelling order("date", desc=True).
ISO date strings compare lexicographically in date order. -/
def sortDesc : List String → List String
  | [] => []
  | x :: xs => insertDesc x (sortDesc xs)

/-- The slice of assignment dates the history endpoint requests:
range(offset, offset + limit - 1) over the descending date order. -/
def historyRows (page limit : Nat) (s : Store) : List String :=
  ((sortDesc (s.daily_haikus.map (fun a => a.date))).drop ((page - 1) * limit)).take limit

/-- Response of the history endpoint: items with nextPage, or a propagated
HTTPException status. -/
inductive HistResp where
  | ok (items : List PoemView) (nextPage : Option Nat)
  | err (status : Nat)
deriving DecidableEq, Repr

/-- Resolve each row date through the inner /haiku/.. handler, decorating the
view with the row date; a raised 404 aborts the whole request (`none`). -/
def historyItems (s : Store) : List String → Option (List PoemView)
  | [] => some []
  | d :: ds =>
      match get_daily_haiku_by_date d s with
      | none => none
      | some h =>
          match historyItems s ds with
          | none => none
          | some rest => some ({ h with date := some d } :: rest)

/-- get_haiku_history, the GET /api/haiku/history handler.  Query validation
(page at least 1, limit 1..100) is enforced by FastAPI before the body runs,
so the model assumes it through hypotheses of the theorems. -/
def get_haiku_history (page limit : Nat) (s : Store) : HistResp :=
  match historyRows page limit s with
  | [] => .ok [] none
  | d :: ds =>
      match historyItems s (d :: ds) with
      | none => .err 404
      | some items =>
          .ok items (if (d :: ds).length = limit then some (page + 1) else none)

/- ===== Email dispatch (main.py lines 235-285) ===== -/

/-- Response payload of the POST /send_daily_haiku_email handler. -/
inductive EResp where
  | unauthorized
  | noHaiku
  | sent
  | failed (code : Nat) (message : String)
  | internalError
deriving DecidableEq, Repr

/-- HTTP status carried by each email-handler outcome: HTTPException statuses
for unauthorized and internalError, 200 for the plain JSON payloads. -/
def respStatusE : EResp → Nat
  | .unauthorized => 401
  | .internalError => 500
  | _ => 200

/-- trigger_daily_email: check the cron secret, find today's assignment,
resolve the poem, post to the email API.  The external API's reply is the
(apiStatus, apiText) pair; the returned Nat counts calls made to the email
API.  Resolving a dangling assignment makes the body construction subscript
None, a TypeError surfaced as a 500. -/
def trigger_daily_email (cronSecret xSecret todayStr : String)
    (apiStatus : Nat) (apiText : String) (s : Store) : EResp × Nat × Store :=
  if xSecret ≠ cronSecret then (.unauthorized, 0, s)
  else
    match s.daily_haikus.filter (fun a => a.date == todayStr) with
    | [] => (.noHaiku, 0, s)
    | a :: _ =>
        match get_haiku_by_id s a.haiku_id with
        | none => (.internalError, 0, s)
        | some _ =>
            if apiStatus = 201 then (.sent, 1, s)
            else (.failed apiStatus apiText, 1, s)

/- ===== Concrete fixtures used by the witnesses ===== -/

/-- Fixture: a winter poem with identifier 1. -/
def pWinter1 : Poem := ⟨1, "h1", "a1", "winter", "t1"⟩

/-- Fixture: a winter poem with identifier 2. -/
def pWinter2 : Poem := ⟨2, "h2", "a2", "winter", "t2"⟩

/-- Fixture: a summer poem with identifier 2. -/
def pSummer2 : Poem := ⟨2, "h2", "a2", "summer", "t2"⟩

/-- Fixture: the date 2025-01-10, a winter day. -/
def dJan10 : YMD := ⟨2025, 1, 10⟩

/-- Fixture: a store whose single poem is already used, with no assignment
for 2025-01-10. -/
def sExhausted : Store := ⟨[pWinter1], [], [⟨"2025-01-09", 1⟩]⟩

/-- Fixture: a store with one summer poem and no assignments, so the winter
pool is empty but the fallback pool is not. -/
def sFallback : Store := ⟨[pSummer2], [], []⟩

/-- Fixture: a store whose only assignment references a poem that is missing
from the haikus table. -/
def sDangling : Store := ⟨[], [], [⟨"2025-01-10", 7⟩]⟩

/-- Fixture: a store with one poem assigned to 2025-01-10. -/
def sAssigned : Store := ⟨[pWinter1], [], [⟨"2025-01-10", 1⟩]⟩

end DailyHaiku

namespace DailyHaiku

lemma daysInMonthG_le (y m : Nat) : daysInMonthG y m ≤ daysInMonth2000 m := by
  unfold daysInMonthG daysInMonth2000
  by_cases hm : m = 2
  · simp [hm]
    by_cases hl : isLeap y = true <;> simp [hl]
  · simp [hm]

/-- Validity in any Gregorian year implies validity in the reference leap year. -/
lemma validGregorian_validMD {y m d : Nat} (h : validGregorian y m d = true) :
    validMD m d = true := by
  unfold validGregorian at h
  unfold validMD
  have h' := of_decide_eq_true h
  have hle := daysInMonthG_le y m
  exact decide_eq_true (by omega)

/-- Season totality and uniqueness over the reference year, established by
finite enumeration of all month-day pairs. -/
lemma season_md_total : ∀ m < 13, ∀ d < 32, validMD m d = true →
    ((get_season m d = some "winter" ∨ get_season m d = some "spring" ∨
      get_season m d = some "summer" ∨ get_season m d = some "autumn") ∧
     (seasons.countP (fun entry => inSeasonRange entry m d)) = 1) := by decide

lemma validMD_bounds {m d : Nat} (h : validMD m d = true) : m < 13 ∧ d < 32 := by
  unfold validMD at h
  have h' := of_decide_eq_true h
  have : daysInMonth2000 m ≤ 31 := by
    unfold daysInMonth2000
    split
    · omega
    · split
      · omega
      · split <;> omega
  omega

/-- Season classification succeeds on every valid month-day pair. -/
lemma get_season_isSome {m d : Nat} (h : validMD m d = true) :
    ∃ lab, get_season m d = some lab := by
  obtain ⟨hm, hd⟩ := validMD_bounds h
  obtain ⟨hlab, _⟩ := season_md_total m hm d hd h
  rcases hlab with h1 | h1 | h1 | h1 <;> exact ⟨_, h1⟩

/- ===== Branch equations for get_daily_haiku ===== -/

lemma gdh_season_none {t : YMD} {c : Nat} {s : Store}
    (h : get_season t.month t.day = none) :
    get_daily_haiku t c s = (.httpError 500 "StopIteration", s) := by
  simp only [get_daily_haiku, h]

lemma gdh_existing {t : YMD} {c : Nat} {s : Store} {sea : String}
    {a : Assignment} {rest : List Assignment}
    (hsea : get_season t.month t.day = some sea)
    (hf : s.daily_haikus.filter (fun x => x.date == ymdToStr t) = a :: rest) :
    get_daily_haiku t c s =
      (match get_haiku_by_id s a.haiku_id with
       | some h => (.poem h, s)
       | none => (.httpError 500 "Haiku assigned but not found", s)) := by
  simp only [get_daily_haiku, hsea, hf]

lemma gdh_closing {t : YMD} {c : Nat} {s : Store} {sea : String}
    (hsea : get_season t.month t.day = some sea)
    (hf : s.daily_haikus.filter (fun x => x.date == ymdToStr t) = [])
    (hpool : remainingPool s sea = []) :
    get_daily_haiku t c s =
      (.closing (closingView (ymdToStr t) (usedIds s).length), s) := by
  simp only [get_daily_haiku, hsea, hf, hpool]

lemma gdh_commit {t : YMD} {c : Nat} {s : Store} {sea : String}
    {p : Poem} {ps : List Poem}
    (hsea : get_season t.month t.day = some sea)
    (hf : s.daily_haikus.filter (fun x => x.date == ymdToStr t) = [])
    (hpool : remainingPool s sea = p :: ps) :
    get_daily_haiku t c s =
      commitChoice t
        ((p :: ps).get
          ⟨c % (p :: ps).length, Nat.mod_lt _ (Nat.succ_pos ps.length)⟩) s := by
  simp only [get_daily_haiku, hsea, hf, hpool]

/- ===== Candidate pools are filtered against the used set ===== -/

lemma mem_fallbackRemaining {s : Store} {p : Poem} (hp : p ∈ fallbackRemaining s) :
    p ∈ s.haikus ∧ p.id ∉ usedIds s := by
  unfold fallbackRemaining at hp
  have h1 := List.mem_filter.1 hp
  refine ⟨h1.1, ?_⟩
  simpa using h1.2

lemma mem_seasonalRemaining {s : Store} {sea : String} {p : Poem}
    (hp : p ∈ seasonalRemaining s sea) : p ∈ s.haikus ∧ p.id ∉ usedIds s := by
  unfold seasonalRemaining at hp
  have h1 := List.mem_filter.1 hp
  have h2 := List.mem_filter.1 h1.1
  refine ⟨h2.1, ?_⟩
  simpa using h1.2

lemma mem_remainingPool {s : Store} {sea : String} {p : Poem}
    (hp : p ∈ remainingPool s sea) : p ∈ s.haikus ∧ p.id ∉ usedIds s := by
  unfold remainingPool at hp
  split at hp
  · exact mem_fallbackRemaining hp
  · rename_i q qs heq
    rw [← heq] at hp
    exact mem_seasonalRemaining hp

/- ===== Upsert on a fresh date is an append ===== -/

lemma upsertAssignment_not_present {rows : List Assignment} {d : String} {hid : Nat}
    (hf : rows.filter (fun a => a.date == d) = []) :
    upsertAssignment rows d hid = rows ++ [⟨d, hid⟩] := by
  have hno : ¬ (rows.any (fun a => a.date == d) = true) := by
    rw [List.any_eq_true]
    rintro ⟨x, hx, hbeq⟩
    exact List.filter_eq_nil_iff.1 hf x hx hbeq
  unfold upsertAssignment
  rw [if_neg hno]

lemma usedIds_withUpsert {t : YMD} {chosen : Poem} {s : Store}
    (hf : s.daily_haikus.filter (fun a => a.date == ymdToStr t) = []) :
    usedIds (withUpsert t chosen s) = usedIds s ++ [chosen.id] := by
  unfold withUpsert usedIds
  rw [upsertAssignment_not_present hf]
  simp

/- ===== Preservation of the no-reuse invariant ===== -/

lemma noReuse_commit {t : YMD} {chosen : Poem} {s : Store}
    (hf : s.daily_haikus.filter (fun a => a.date == ymdToStr t) = [])
    (hch : chosen.id ∉ usedIds s) (h : NoReuse s) :
    NoReuse (commitChoice t chosen s).2 := by
  have hup : NoReuse (withUpsert t chosen s) := by
    unfold NoReuse
    rw [usedIds_withUpsert hf]
    simp [List.nodup_append]
    exact ⟨h, hch⟩
  unfold commitChoice
  split
  · exact h
  · split
    · exact hup
    · exact hup

lemma noReuse_step (t : YMD) (c : Nat) {s : Store} (h : NoReuse s) :
    NoReuse (get_daily_haiku t c s).2 := by
  rcases hsea : get_season t.month t.day with _ | sea
  · rw [gdh_season_none hsea]; exact h
  · rcases hf : s.daily_haikus.filter (fun x => x.date == ymdToStr t) with _ | ⟨a, rest⟩
    · rcases hpool : remainingPool s sea with _ | ⟨p, ps⟩
      · rw [gdh_closing hsea hf hpool]; exact h
      · rw [gdh_commit hsea hf hpool]
        apply noReuse_commit hf ?_ h
        have hm : ((p :: ps).get
            ⟨c % (p :: ps).length, Nat.mod_lt _ (Nat.succ_pos ps.length)⟩)
            ∈ remainingPool s sea := by
          rw [hpool]
          exact List.get_mem _ _ _
        exact (mem_remainingPool hm).2
    · rw [gdh_existing hsea hf]
      split
      · exact h
      · exact h

lemma noReuse_runCalls (ops : List (YMD × Nat)) {s : Store} (h : NoReuse s) :
    NoReuse (runCalls ops s) := by
  induction ops generalizing s with
  | nil => exact h
  | cons op ops ih =>
      unfold runCalls
      rw [List.foldl_cons]
      exact ih (noReuse_step op.1 op.2 h)

/- ===== Commit-branch equations ===== -/

lemma commitChoice_pos {t : YMD} {chosen : Poem} {s : Store}
    (hid : ¬ chosen.id = 0) :
    commitChoice t chosen s =
      (match get_haiku_by_id (withUpsert t chosen s) chosen.id with
       | some h => (.poem h, withUpsert t chosen s)
       | none => (.noneBody, withUpsert t chosen s)) := by
  unfold commitChoice; rw [if_neg hid]

lemma filter_withUpsert {t : YMD} {chosen : Poem} {s : Store}
    (hf : s.daily_haikus.filter (fun x => x.date == ymdToStr t) = []) :
    (withUpsert t chosen s).daily_haikus.filter (fun x => x.date == ymdToStr t) =
      [⟨ymdToStr t, chosen.id⟩] := by
  unfold withUpsert
  simp only
  rw [upsertAssignment_not_present hf, List.filter_append, hf]
  simp

/- ===== Claim theorems ===== -/

/-- C1: across any sequence of sequential get-or-create calls starting from a
store in which no poem identifier occurs twice among the assignments, the
final store still has no poem identifier in two assignment rows; moreover, in
every store, every candidate of the seasonal pool and of the fallback pool is
filtered against the identifiers already present in some assignment. -/
theorem no_reuse_invariant (ops : List (YMD × Nat)) (s : Store) (h : NoReuse s) :
    NoReuse (runCalls ops s) ∧
    ∀ s' : Store, ∀ sea : String, ∀ p : Poem,
      (p ∈ seasonalRemaining s' sea → p.id ∉ usedIds s') ∧
      (p ∈ fallbackRemaining s' → p.id ∉ usedIds s') :=
  ⟨noReuse_runCalls ops h,
   fun _ _ _ => ⟨fun hp => (mem_seasonalRemaining hp).2,
                 fun hp => (mem_fallbackRemaining hp).2⟩⟩

/-- Witness for C1 at a concrete two-poem store and two distinct dates. -/
theorem no_reuse_invariant_witness :
    NoReuse (runCalls [(⟨2025, 1, 10⟩, 0), (⟨2025, 1, 11⟩, 0)]
      (Store.mk [⟨1, "h1", "a1", "winter", "t1"⟩, ⟨2, "h2", "a2", "winter", "t2"⟩]
        [] [])) :=
  (no_reuse_invariant _ _ (by unfold NoReuse; decide)).1

/-- C2: when a get-or-create call for a date returns a poem, a second call for
the same date, with no interleaving write, returns the same poem and leaves
the store unchanged, whatever the second random draw is. -/
theorem get_or_create_idempotent (t : YMD) (c1 c2 : Nat) (s : Store)
    (v : PoemView) (h : (get_daily_haiku t c1 s).1 = .poem v) :
    get_daily_haiku t c2 (get_daily_haiku t c1 s).2 =
      (.poem v, (get_daily_haiku t c1 s).2) := by
  rcases hsea : get_season t.month t.day with _ | sea
  · rw [gdh_season_none hsea] at h
    simp at h
  · rcases hf : s.daily_haikus.filter (fun x => x.date == ymdToStr t)
        with _ | ⟨a, rest⟩
    · rcases hpool : remainingPool s sea with _ | ⟨p, ps⟩
      · rw [gdh_closing hsea hf hpool] at h
        simp at h
      · have h1 := gdh_commit (c := c1) hsea hf hpool
        generalize hch : (p :: ps).get
            ⟨c1 % (p :: ps).length, Nat.mod_lt _ (Nat.succ_pos ps.length)⟩
            = chosen at h1
        by_cases hid : chosen.id = 0
        · rw [h1] at h
          unfold commitChoice at h
          rw [if_pos hid] at h
          simp at h
        · rcases hlook : get_haiku_by_id (withUpsert t chosen s) chosen.id
              with _ | hk
          · rw [h1, commitChoice_pos hid, hlook] at h
            simp at h
          · rw [h1, commitChoice_pos hid, hlook] at h
            simp only [Prod.fst, Resp.poem.injEq] at h
            subst h
            have h2 : (get_daily_haiku t c1 s).2 = withUpsert t chosen s := by
              rw [h1, commitChoice_pos hid, hlook]
            rw [h2]
            rw [gdh_existing (c := c2) hsea (filter_withUpsert hf)]
            simp only [hlook]
    · have h1 := gdh_existing (c := c1) hsea hf
      rcases hlook : get_haiku_by_id s a.haiku_id with _ | hk
      · rw [h1, hlook] at h
        simp at h
      · rw [h1, hlook] at h
        simp only [Prod.fst, Resp.poem.injEq] at h
        subst h
        have h2 : (get_daily_haiku t c1 s).2 = s := by
          rw [h1, hlook]
        rw [h2]
        rw [gdh_existing (c := c2) hsea hf]
        simp only [hlook]

/-- Witness for C2 at a one-poem store and the date 2025-01-10. -/
theorem get_or_create_idempotent_witness :
    get_daily_haiku ⟨2025, 1, 10⟩ 5
        (get_daily_haiku ⟨2025, 1, 10⟩ 0
          (Store.mk [⟨1, "h1", "a1", "winter", "t1"⟩] [(1, "snow")] [])).2 =
      (.poem ⟨1, "h1", "a1", "winter", "t1", ["snow"],
        "https://bucket.example/haiku_1.png", none⟩,
       (get_daily_haiku ⟨2025, 1, 10⟩ 0
          (Store.mk [⟨1, "h1", "a1", "winter", "t1"⟩] [(1, "snow")] [])).2) :=
  get_or_create_idempotent ⟨2025, 1, 10⟩ 0 5 _ _ (by decide)

/-- C4: the season classifier is total over every valid Gregorian calendar
date of any year, Feb 29 included; it yields exactly one of the four labels,
and exactly one of the five ordered ranges contains the month-day pair. -/
theorem season_classifier_total_partition (y m d : Nat)
    (h : validGregorian y m d = true) :
    (get_season m d = some "winter" ∨ get_season m d = some "spring" ∨
     get_season m d = some "summer" ∨ get_season m d = some "autumn") ∧
    (seasons.countP (fun entry => inSeasonRange entry m d)) = 1 := by
  have hmd := validGregorian_validMD h
  obtain ⟨hm, hd⟩ := validMD_bounds hmd
  exact season_md_total m hm d hd hmd

/-- Witness for C4 at Feb 29 of the leap year 2000. -/
theorem season_classifier_total_partition_witness :
    validGregorian 2000 2 29 = true ∧
    ((get_season 2 29 = some "winter" ∨ get_season 2 29 = some "spring" ∨
      get_season 2 29 = some "summer" ∨ get_season 2 29 = some "autumn") ∧
     (seasons.countP (fun entry => inSeasonRange entry 2 29)) = 1) :=
  ⟨by decide, season_classifier_total_partition 2000 2 29 (by decide)⟩

lemma seasonal_sub_fallback {s : Store} {sea : String}
    (hex : fallbackRemaining s = []) : seasonalRemaining s sea = [] := by
  unfold fallbackRemaining at hex
  unfold seasonalRemaining
  rw [List.filter_eq_nil_iff]
  intro p hp
  exact List.filter_eq_nil_iff.1 hex p (List.mem_filter.1 hp).1

lemma remainingPool_of_exhausted {s : Store} {sea : String}
    (hex : fallbackRemaining s = []) : remainingPool s sea = [] := by
  simp only [remainingPool, seasonal_sub_fallback hex, hex]

/-- C3: in a store where every poem identifier is already used (empty
fallback pool) and today has no assignment yet, get-or-create returns the
synthetic closing view labelled eternal, writes nothing, returns the very
same response and store on a repeated call, and (the used identifiers being
duplicate-free) the count it reports equals the number of distinct poem
identifiers ever used. -/
theorem terminal_state_closing (t : YMD) (c c2 : Nat) (s : Store)
    (hv : validMD t.month t.day = true)
    (hf : s.daily_haikus.filter (fun x => x.date == ymdToStr t) = [])
    (hex : fallbackRemaining s = [])
    (hnr : NoReuse s) :
    get_daily_haiku t c s =
      (.closing (closingView (ymdToStr t) (usedIds s).length), s) ∧
    get_daily_haiku t c2 (get_daily_haiku t c s).2 = get_daily_haiku t c s ∧
    (closingView (ymdToStr t) (usedIds s).length).season = "eternal" ∧
    (usedIds s).length = (usedIds s).dedup.length := by
  obtain ⟨sea, hsea⟩ := get_season_isSome hv
  have h1 := gdh_closing (c := c) hsea hf (remainingPool_of_exhausted hex)
  have h2 := gdh_closing (c := c2) hsea hf (remainingPool_of_exhausted hex)
  refine ⟨h1, ?_, rfl, ?_⟩
  · rw [h1]
    exact h2
  · rw [List.dedup_eq_self.2 hnr]

/-- Witness for C3 at a store whose single poem is already used. -/
theorem terminal_state_closing_witness :
    get_daily_haiku dJan10 0 sExhausted =
      (.closing (closingView (ymdToStr dJan10) (usedIds sExhausted).length),
       sExhausted) ∧
    get_daily_haiku dJan10 4 (get_daily_haiku dJan10 0 sExhausted).2 =
      get_daily_haiku dJan10 0 sExhausted ∧
    (closingView (ymdToStr dJan10) (usedIds sExhausted).length).season =
      "eternal" ∧
    (usedIds sExhausted).length = (usedIds sExhausted).dedup.length :=
  terminal_state_closing dJan10 0 4 sExhausted (by decide) (by decide)
    (by decide) (by unfold NoReuse; decide)

lemma get_haiku_by_id_of_mem {s : Store} {p : Poem} (hp : p ∈ s.haikus) :
    ∃ v, get_haiku_by_id s p.id = some v ∧ v.id = p.id := by
  rcases hfind : s.haikus.find? (fun h => h.id == p.id) with _ | h'
  · exfalso
    have hsome : (s.haikus.find? (fun h => h.id == p.id)).isSome := by
      rw [List.find?_isSome]
      exact ⟨p, hp, by simp⟩
    rw [hfind] at hsome
    simp at hsome
  · unfold get_haiku_by_id
    simp only [hfind]
    exact ⟨_, rfl, by simpa using List.find?_some hfind⟩

lemma get_haiku_by_id_withUpsert {t : YMD} {ch : Poem} {s : Store} {hid : Nat} :
    get_haiku_by_id (withUpsert t ch s) hid = get_haiku_by_id s hid := rfl

/-- C5: when the seasonal pool for today's season is exhausted but some poem
of any season remains unused, get-or-create still succeeds: it commits a poem
drawn from the all-poems-minus-used fallback pool and returns its view,
rather than the closing view or an error. -/
theorem fallback_widening (t : YMD) (c : Nat) (s : Store) (sea : String)
    (hsea : get_season t.month t.day = some sea)
    (hf : s.daily_haikus.filter (fun x => x.date == ymdToStr t) = [])
    (hempty : seasonalRemaining s sea = [])
    (hfb : fallbackRemaining s ≠ [])
    (hids : ∀ p ∈ s.haikus, p.id ≠ 0) :
    ∃ p v, p ∈ fallbackRemaining s ∧ v.id = p.id ∧
      get_daily_haiku t c s =
        (.poem v,
         { s with daily_haikus := s.daily_haikus ++ [⟨ymdToStr t, p.id⟩] }) := by
  rcases hq : fallbackRemaining s with _ | ⟨q, qs⟩
  · exact absurd hq hfb
  · have hpool : remainingPool s sea = q :: qs := by
      simp only [remainingPool, hempty, hq]
    have h1 := gdh_commit (c := c) hsea hf hpool
    generalize hch : (q :: qs).get
        ⟨c % (q :: qs).length, Nat.mod_lt _ (Nat.succ_pos qs.length)⟩
        = chosen at h1
    have hmemq : chosen ∈ q :: qs := by
      rw [← hch]
      exact List.get_mem _ _ _
    have hmem : chosen ∈ fallbackRemaining s := by
      rw [hq]
      exact hmemq
    have hhk : chosen ∈ s.haikus := (mem_fallbackRemaining hmem).1
    have hid : ¬ chosen.id = 0 := hids chosen hhk
    obtain ⟨v, hlook, hvid⟩ := get_haiku_by_id_of_mem hhk
    refine ⟨chosen, v, hmemq, hvid, ?_⟩
    rw [h1, commitChoice_pos hid]
    have hlook2 : get_haiku_by_id (withUpsert t chosen s) chosen.id = some v :=
      get_haiku_by_id_withUpsert.trans hlook
    simp only [hlook2]
    unfold withUpsert
    rw [upsertAssignment_not_present hf]

/-- Witness for C5: one summer poem, a winter date, empty seasonal pool. -/
theorem fallback_widening_witness :
    ∃ p v, p ∈ fallbackRemaining sFallback ∧ v.id = p.id ∧
      get_daily_haiku dJan10 0 sFallback =
        (.poem v,
         { sFallback with daily_haikus :=
             sFallback.daily_haikus ++ [⟨ymdToStr dJan10, p.id⟩] }) :=
  fallback_widening dJan10 0 sFallback "winter" (by decide) (by decide)
    (by decide) (by decide) (by decide)

/-- Counterexample to C6: in a store whose only assignment for 2025-01-10
references the missing poem 7, the read-only lookup by date reports 404
NotFound, although the claim says that condition is never reported as 404. -/
theorem dangling_lookup_counterexample :
    get_haiku_data_by_date_route "2025-01-10" sDangling =
      .httpError 404 "Haiku not found." := by decide

/-- C6 amended: when an existing assignment references a missing poem,
get-or-create for today reports a 500 internal error and writes nothing,
while the read-only lookup by date reports 404 NotFound (the dangling
reference is indistinguishable there from a missing assignment). -/
theorem dangling_reference_amended (t : YMD) (c : Nat) (s : Store)
    (sea : String) (a a2 : Assignment) (rest rest2 : List Assignment)
    (dstr : String) (d2 : YMD)
    (hsea : get_season t.month t.day = some sea)
    (hf : s.daily_haikus.filter (fun x => x.date == ymdToStr t) = a :: rest)
    (hmiss : get_haiku_by_id s a.haiku_id = none)
    (hp : parseDate dstr = some d2)
    (hf2 : s.daily_haikus.filter (fun x => x.date == ymdToStr d2) = a2 :: rest2)
    (hmiss2 : get_haiku_by_id s a2.haiku_id = none) :
    get_daily_haiku t c s = (.httpError 500 "Haiku assigned but not found", s) ∧
    get_haiku_data_by_date dstr s = .httpError 404 "Haiku not found." := by
  constructor
  · rw [gdh_existing hsea hf]
    simp only [hmiss]
  · unfold get_haiku_data_by_date get_daily_haiku_by_date
    simp only [hp, hf2, hmiss2]

/-- Witness for the amended C6 at the dangling fixture store. -/
theorem dangling_reference_amended_witness :
    get_daily_haiku dJan10 0 sDangling =
      (.httpError 500 "Haiku assigned but not found", sDangling) ∧
    get_haiku_data_by_date "2025-01-10" sDangling =
      .httpError 404 "Haiku not found." :=
  dangling_reference_amended dJan10 0 sDangling "winter"
    ⟨"2025-01-10", 7⟩ ⟨"2025-01-10", 7⟩ [] [] "2025-01-10" ⟨2025, 1, 10⟩
    (by decide) (by decide) (by decide) (by decide) (by decide) (by decide)

/-- Counterexample to C8: with a valid secret, an assignment for today, and
a 503 from the email API, the handler returns a plain 200 payload carrying
the upstream status and message, not a 500 dependency-failure error. -/
theorem email_failure_counterexample :
    (trigger_daily_email "sec" "sec" "2025-01-10" 503 "upstream error"
        sAssigned).1 = .failed 503 "upstream error" ∧
    respStatusE (trigger_daily_email "sec" "sec" "2025-01-10" 503
        "upstream error" sAssigned).1 ≠ 500 := by decide

/-- C8 amended: a non-201 email API response is surfaced to the caller as an
HTTP 200 JSON payload with status failed, the upstream status code and the
upstream message text; the email API is called exactly once (no internal
retry) and the store is unchanged. -/
theorem email_failure_amended (cronSecret todayStr apiText : String)
    (apiStatus : Nat) (s : Store) (a : Assignment) (rest : List Assignment)
    (v : PoemView)
    (hf : s.daily_haikus.filter (fun x => x.date == todayStr) = a :: rest)
    (hv : get_haiku_by_id s a.haiku_id = some v)
    (hst : apiStatus ≠ 201) :
    trigger_daily_email cronSecret cronSecret todayStr apiStatus apiText s =
      (.failed apiStatus apiText, 1, s) ∧
    respStatusE (.failed apiStatus apiText) = 200 := by
  refine ⟨?_, rfl⟩
  unfold trigger_daily_email
  rw [if_neg (by simp)]
  simp only [hf, hv, if_neg hst]

/-- Witness for the amended C8 at the assigned fixture store. -/
theorem email_failure_amended_witness :
    trigger_daily_email "sec" "sec" "2025-01-10" 503 "boom" sAssigned =
      (.failed 503 "boom", 1, sAssigned) ∧
    respStatusE (.failed 503 "boom") = 200 :=
  email_failure_amended "sec" "2025-01-10" "boom" 503 sAssigned
    ⟨"2025-01-10", 1⟩ []
    ⟨1, "h1", "a1", "winter", "t1", [], "https://bucket.example/haiku_1.png",
     none⟩
    (by decide) (by decide) (by decide)

/-- C9: every lookup-by-date input that is not a valid YYYY-MM-DD calendar
date is answered with the 422 route-validation rejection (wrong shape) or
with 404 NotFound (well-shaped but not a real date); never with a 500. -/
theorem malformed_date_rejected (dstr : String) (s : Store)
    (h : parseDate dstr = none) :
    get_haiku_data_by_date_route dstr s =
      .httpError 422 "string should match pattern" ∨
    get_haiku_data_by_date_route dstr s = .httpError 404 "Haiku not found." := by
  unfold get_haiku_data_by_date_route
  by_cases hpat : datePatternOk dstr = true
  · right
    rw [if_pos hpat]
    unfold get_haiku_data_by_date get_daily_haiku_by_date
    simp only [h]
  · left
    rw [if_neg hpat]

/-- Witness for C9 at the well-shaped but invalid date 2024-13-40. -/
theorem malformed_date_rejected_witness :
    get_haiku_data_by_date_route "2024-13-40" sAssigned =
      .httpError 422 "string should match pattern" ∨
    get_haiku_data_by_date_route "2024-13-40" sAssigned =
      .httpError 404 "Haiku not found." :=
  malformed_date_rejected "2024-13-40" sAssigned (by decide)

/-- C10: with a valid cron secret and no assignment for today, the email
handler returns the benign no-haiku payload with HTTP status 200, never
contacts the email API (zero calls), and leaves the store unchanged. -/
theorem email_no_assignment (cronSecret todayStr apiText : String)
    (apiStatus : Nat) (s : Store)
    (hf : s.daily_haikus.filter (fun a => a.date == todayStr) = []) :
    trigger_daily_email cronSecret cronSecret todayStr apiStatus apiText s =
      (.noHaiku, 0, s) ∧
    respStatusE .noHaiku = 200 := by
  refine ⟨?_, rfl⟩
  unfold trigger_daily_email
  rw [if_neg (by simp)]
  simp only [hf]

/-- Witness for C10 at a store with no assignment for 2025-01-10. -/
theorem email_no_assignment_witness :
    trigger_daily_email "sec" "sec" "2025-01-10" 201 "ok" sFallback =
      (.noHaiku, 0, sFallback) ∧
    respStatusE .noHaiku = 200 :=
  email_no_assignment "sec" "2025-01-10" "ok" 201 sFallback (by decide)

lemma mem_insertDesc {a d : String} {l : List String} :
    a ∈ insertDesc d l ↔ a = d ∨ a ∈ l := by
  induction l with
  | nil => simp [insertDesc]
  | cons x xs ih =>
      unfold insertDesc
      split
      · simp
      · simp only [List.mem_cons, ih]
        tauto

lemma mem_sortDesc {a : String} {l : List String} :
    a ∈ sortDesc l ↔ a ∈ l := by
  induction l with
  | nil => simp [sortDesc]
  | cons x xs ih =>
      unfold sortDesc
      rw [mem_insertDesc]
      simp [ih]

lemma length_insertDesc (d : String) (l : List String) :
    (insertDesc d l).length = l.length + 1 := by
  induction l with
  | nil => rfl
  | cons x xs ih =>
      unfold insertDesc
      split
      · rfl
      · simp [ih]

lemma length_sortDesc (l : List String) :
    (sortDesc l).length = l.length := by
  induction l with
  | nil => rfl
  | cons x xs ih =>
      unfold sortDesc
      rw [length_insertDesc, ih]
      rfl

lemma mem_historyRows {dd : String} {page limit : Nat} {s : Store}
    (h : dd ∈ historyRows page limit s) :
    ∃ a ∈ s.daily_haikus, a.date = dd := by
  unfold historyRows at h
  have h1 := List.take_subset _ _ h
  have h2 := List.drop_subset _ _ h1
  have h3 := mem_sortDesc.1 h2
  obtain ⟨a, ha, hda⟩ := List.mem_map.1 h3
  exact ⟨a, ha, hda⟩

lemma historyItems_total {s : Store} {rows : List String}
    (h : ∀ dd ∈ rows, (get_daily_haiku_by_date dd s).isSome) :
    ∃ items, historyItems s rows = some items ∧ items.length = rows.length := by
  induction rows with
  | nil => exact ⟨[], rfl, rfl⟩
  | cons d ds ih =>
      have hd := h d (List.mem_cons_self d ds)
      rcases hres : get_daily_haiku_by_date d s with _ | v
      · rw [hres] at hd
        simp at hd
      · obtain ⟨items, hitems, hlen⟩ :=
          ih (fun dd hdd => h dd (List.mem_cons_of_mem d hdd))
        refine ⟨{ v with date := some d } :: items, ?_, by simp [hlen]⟩
        unfold historyItems
        simp only [hres, hitems]

/-- C7: for any page and limit accepted by the route, and a store whose
assignments all resolve, the history endpoint answers with an item list,
nextPage equals page+1 exactly when the requested slice holds limit rows,
nextPage is null exactly when it holds fewer, and an out-of-range page is
answered with the empty list and null nextPage, not an error. -/
theorem history_nextPage (page limit : Nat) (s : Store)
    (hp : 1 ≤ page) (hl1 : 1 ≤ limit) (hl2 : limit ≤ 100)
    (hwf : ∀ a ∈ s.daily_haikus, (get_daily_haiku_by_date a.date s).isSome) :
    ∃ items np, get_haiku_history page limit s = .ok items np ∧
      items.length = (historyRows page limit s).length ∧
      (np = some (page + 1) ↔ (historyRows page limit s).length = limit) ∧
      (np = none ↔ (historyRows page limit s).length < limit) ∧
      ((page - 1) * limit ≥ s.daily_haikus.length →
        get_haiku_history page limit s = .ok [] none) := by
  have hoork : ∀ dd ∈ historyRows page limit s,
      (get_daily_haiku_by_date dd s).isSome := by
    intro dd hdd
    obtain ⟨a, ha, hda⟩ := mem_historyRows hdd
    rw [← hda]
    exact hwf a ha
  rcases hrows : historyRows page limit s with _ | ⟨d, ds⟩
  · have hempty : get_haiku_history page limit s = .ok [] none := by
      simp only [get_haiku_history, hrows]
    refine ⟨[], none, hempty, rfl, ?_, ?_, fun _ => hempty⟩
    · simp
      omega
    · simp
      omega
  · rw [hrows] at hoork
    obtain ⟨items, hitems, hlen⟩ := historyItems_total hoork
    have hle : (d :: ds).length ≤ limit := by
      rw [← hrows]
      unfold historyRows
      exact List.length_take_le _ _
    have hout : (page - 1) * limit ≥ s.daily_haikus.length → False := by
      intro hge
      have hnil : historyRows page limit s = [] := by
        unfold historyRows
        rw [List.drop_eq_nil_of_le, List.take_nil]
        rw [length_sortDesc, List.length_map]
        exact hge
      rw [hrows] at hnil
      cases hnil
    by_cases hc : (d :: ds).length = limit
    · refine ⟨items, some (page + 1), ?_, hlen, ?_, ?_,
        fun hge => absurd (hout hge) (fun hco => hco)⟩
      · simp only [get_haiku_history, hrows, hitems]
        rw [if_pos hc]
      · simp [hc]
      · constructor
        · intro hnone
          cases hnone
        · intro hlt
          omega
    · refine ⟨items, none, ?_, hlen, ?_, ?_,
        fun hge => absurd (hout hge) (fun hco => hco)⟩
      · simp only [get_haiku_history, hrows, hitems]
        rw [if_neg hc]
      · constructor
        · intro hnone
          cases hnone
        · intro heq
          exact absurd heq hc
      · constructor
        · intro _
          omega
        · intro _
          rfl

/-- Witness for C7 at a one-assignment store with page 1 and limit 1. -/
theorem history_nextPage_witness :
    ∃ items np, get_haiku_history 1 1 sAssigned = .ok items np ∧
      items.length = (historyRows 1 1 sAssigned).length ∧
      (np = some 2 ↔ (historyRows 1 1 sAssigned).length = 1) ∧
      (np = none ↔ (historyRows 1 1 sAssigned).length < 1) ∧
      (0 * 1 ≥ sAssigned.daily_haikus.length →
        get_haiku_history 1 1 sAssigned = .ok [] none) :=
  history_nextPage 1 1 sAssigned (by decide) (by decide) (by decide) (by decide)

end DailyHaiku
